import Mathlib

/-!
Verification development for the Marscoin proof-of-work core
(src/pow.cpp, src/pow.h, src/kernel/chainparams.cpp).

The block index is modelled as a `List Block` whose head is the chain tip
(`pindexLast`); the tail is the `pprev` chain.  A null `CBlockIndex*` is the
empty list.  256-bit unsigned integers (`uint256`) are modelled as `Nat` with
explicit `% 2 ^ 256` where the width matters; OpenSSL big integers (`CBigNum`)
are modelled as `Int` (arbitrary precision, sign-magnitude shifts, truncated
division).  Machine `int64_t` / `int32_t` arithmetic is modelled with explicit
two's-complement wrapping (`wrap64` / `wrap32`).  C++ `assert` statements are
modelled as preconditions (hypotheses of the theorems), matching NDEBUG
release builds.  The chain-parameter accessors used by pow.cpp
(`Params().RequireStandard()`, `ProofOfWorkLimit()`, `TargetSpacing()`,
`TargetTimespan()`, `Interval()`, `AllowMinDifficultyBlocks()`,
`SkipProofOfWorkCheck()`) and the `uint256` / `CBigNum` compact codec are not
part of the three source files; they are modelled from the spec where so
marked.
-/

namespace Marscoin

set_option maxRecDepth 100000

/-- Two's-complement wrap of an unbounded integer into the `int64_t` range. -/
def wrap64 (x : Int) : Int := (x + 2 ^ 63) % 2 ^ 64 - 2 ^ 63

/-- Two's-complement wrap of an unbounded integer into the `int32_t` range. -/
def wrap32 (x : Int) : Int := (x + 2 ^ 31) % 2 ^ 32 - 2 ^ 31

/-- Fuel-driven binary length; `bitLenAux fuel n` is the number of binary
digits of `n` whenever `n < 2 ^ fuel`. -/
def bitLenAux : Nat → Nat → Nat
  | 0, _ => 0
  | fuel + 1, n => if n = 0 then 0 else bitLenAux fuel (n / 2) + 1

/-- Modelled from the spec, section 4.A (the `uint256` / `CBigNum`
implementation is not under src/): the `bits()` operation, the position of the
highest set bit plus one.  The fixed fuel covers every value that arises here
(all are far below `2 ^ 8192`). -/
def bitLen (n : Nat) : Nat := bitLenAux 8192 n

/-- Modelled from the spec, section 4.A: `set_compact` on the unsigned 256-bit
target type (`uint256::SetCompact`), value part.  Base-256 scientific
notation: byte 0 is the exponent, bytes 1-3 the mantissa; a left shift on the
256-bit type silently drops high bits. -/
def setCompact (nCompact : Nat) : Nat :=
  let nSize := nCompact >>> 24
  let nWord := nCompact &&& 0x007fffff
  if nSize ≤ 3 then nWord >>> (8 * (3 - nSize)) else (nWord <<< (8 * (nSize - 3))) % 2 ^ 256

/-- Modelled from the spec, section 4.A: the `negative` flag of `set_compact`:
the mantissa sign bit is set and the mantissa is nonzero. -/
def compactNegative (c : Nat) : Prop :=
  c &&& 0x007fffff ≠ 0 ∧ c &&& 0x00800000 ≠ 0

instance (c : Nat) : Decidable (compactNegative c) := by
  unfold compactNegative; exact inferInstance

/-- Modelled from the spec, section 4.A: the `overflow` flag of
`set_compact`. -/
def compactOverflow (c : Nat) : Prop :=
  c &&& 0x007fffff ≠ 0 ∧
    (34 < c >>> 24 ∨ (0xff < c &&& 0x007fffff ∧ 33 < c >>> 24) ∨
      (0xffff < c &&& 0x007fffff ∧ 32 < c >>> 24))

instance (c : Nat) : Decidable (compactOverflow c) := by
  unfold compactOverflow; exact inferInstance

/-- Modelled from the spec, section 4.A: `get_compact`, which normalises so
that the mantissa sign bit is clear (incrementing the size and right-shifting
by one byte when it is not). -/
def getCompact (x : Nat) : Nat :=
  let nSize := (bitLen x + 7) / 8
  let c := if nSize ≤ 3 then x <<< (8 * (3 - nSize)) else x >>> (8 * (nSize - 3))
  if c &&& 0x00800000 ≠ 0 then (c >>> 8) ||| ((nSize + 1) <<< 24) else c ||| (nSize <<< 24)

/-- Modelled from the spec, section 4.A: `CBigNum::SetCompact` — as
`setCompact` but on an arbitrary-precision signed integer: no 256-bit
truncation, and the mantissa sign bit makes the value negative. -/
def bigSetCompact (nCompact : Nat) : Int :=
  let nSize := nCompact >>> 24
  let nWord := nCompact &&& 0x007fffff
  let v : Nat := if nSize ≤ 3 then nWord >>> (8 * (3 - nSize)) else nWord <<< (8 * (nSize - 3))
  if nCompact &&& 0x00800000 ≠ 0 then -(v : Int) else (v : Int)

/-- Modelled from the spec, section 4.A: `CBigNum::GetCompact` — the compact
encoding of the magnitude, with the mantissa sign bit set for negative
values. -/
def bigGetCompact (x : Int) : Nat :=
  if x < 0 then getCompact x.natAbs ||| 0x00800000 else getCompact x.natAbs

/-- Sign-magnitude right shift (OpenSSL `BN_rshift` semantics). -/
def bigShr (x : Int) (n : Nat) : Int :=
  if x < 0 then -((x.natAbs >>> n : Nat) : Int) else ((x.natAbs >>> n : Nat) : Int)

/-- Sign-magnitude left shift (OpenSSL `BN_lshift` semantics); exact
multiplication by a power of two. -/
def bigShl (x : Int) (n : Nat) : Int := x * 2 ^ n

/-- Modelled from the spec, section 3: the chain-parameter fields consumed by
the proof-of-work functions.  `fPowNoRetargeting` and `nASERTAnchor` are the
fields of those names set in src/kernel/chainparams.cpp. -/
structure Params where
  requireStandard : Bool
  proofOfWorkLimit : Nat
  targetSpacing : Int
  targetTimespan : Int
  allowMinDifficultyBlocks : Bool
  skipProofOfWorkCheck : Bool
  fPowNoRetargeting : Bool
  nASERTAnchor : Int

/-- Modelled from the spec, section 3:
`difficulty_adjustment_interval() = pow_target_timespan / pow_target_spacing`
(the `Params().Interval()` accessor used by pow.cpp). -/
def Params.interval (p : Params) : Int := Int.tdiv p.targetTimespan p.targetSpacing

/-- Main-network parameters: `powLimit`, `nPowTargetTimespan = 3.5*24*60*60`,
`nPowTargetSpacing = 2.5*60`, `nASERTAnchor = 2999999` and the three booleans
are taken from `CMainParams` in src/kernel/chainparams.cpp;
`requireStandard = true` and `skipProofOfWorkCheck = false` are modelled from
the spec (main network). -/
def mainParams : Params where
  requireStandard := true
  proofOfWorkLimit := 2 ^ 236 - 1
  targetSpacing := 150
  targetTimespan := 302400
  allowMinDifficultyBlocks := false
  skipProofOfWorkCheck := false
  fPowNoRetargeting := false
  nASERTAnchor := 2999999

/-- One node of the block index (`CBlockIndex`): height, timestamp and compact
target.  The `pprev` pointer is the tail of the enclosing list. -/
structure Block where
  nHeight : Int
  nTime : Int
  nBits : Nat
deriving DecidableEq

/-- The candidate block header (`CBlockHeader`); the proof-of-work functions
read only its timestamp. -/
structure Header where
  nTime : Int

/-- A well-formed chain: each node's height is its predecessor's height plus
one. -/
def wellFormed : List Block → Prop
  | [] => True
  | [_] => True
  | a :: b :: t => a.nHeight = b.nHeight + 1 ∧ wellFormed (b :: t)

instance : (l : List Block) → Decidable (wellFormed l)
  | [] => by unfold wellFormed; exact inferInstance
  | [_] => by unfold wellFormed; exact inferInstance
  | _ :: b :: t =>
    letI : Decidable (wellFormed (b :: t)) := instDecidableWellFormed (b :: t)
    by unfold wellFormed; exact inferInstance

/-- The ancestor walk of `GetNextWorkRequired_V1` (src/pow.cpp lines 487-490):
`for (int i = 0; pindexFirst && i < blockstogoback; i++) pindexFirst =
pindexFirst->pprev;`, returning `none` where the source's
`assert(pindexFirst)` would fail. -/
def walkBack : List Block → Int → Option Block
  | [], _ => none
  | b :: t, n => if n ≤ 0 then some b else walkBack t (n - 1)

/-- The testnet min-difficulty rescue walk of `GetNextWorkRequired_V1`
(src/pow.cpp lines 471-474): walk back while the predecessor exists, the
height is not on a retarget boundary and the block carries the minimum
difficulty. -/
def minDiffWalk : List Block → Int → Nat → Nat
  | [], _, _ => 0
  | b :: t, nInterval, limit =>
    match t with
    | [] => b.nBits
    | _ :: _ =>
      if Int.tmod b.nHeight nInterval ≠ 0 ∧ b.nBits = limit then minDiffWalk t nInterval limit
      else b.nBits

/-- The anchor search of `GravityAsert` (src/pow.cpp lines 755-758):
`while (pindexAnchor && pindexAnchor->nHeight > nAnchorHeight) pindexAnchor =
pindexAnchor->pprev;`. -/
def anchorWalk (anchorHeight : Int) : List Block → Option Block
  | [] => none
  | b :: t => if b.nHeight > anchorHeight then anchorWalk anchorHeight t else some b

/-- Effective V1 timespan after the fork overrides (src/pow.cpp lines
443-456): both forks set the timespan to one Mars sol. -/
def v1Timespan (p : Params) (nHeight : Int) : Int :=
  if 14260 ≤ nHeight then 88775 else p.targetTimespan

/-- Effective V1 spacing after the fork overrides (src/pow.cpp lines
450-456). -/
def v1Spacing (p : Params) (nHeight : Int) : Int :=
  if 70000 ≤ nHeight then 123 else p.targetSpacing

/-- Effective V1 interval after the fork overrides (src/pow.cpp lines
450-456): recomputed as `88775 / 123` at the second fork, otherwise the
`Params().Interval()` accessor value. -/
def v1Interval (p : Params) (nHeight : Int) : Int :=
  if 70000 ≤ nHeight then Int.tdiv 88775 123 else p.interval

/-- Legacy retarget algorithm `GetNextWorkRequired_V1` (src/pow.cpp lines
429-524).  Returns `none` where the source's `assert(pindexFirst)` would
fail.  The `uint256` multiply, divide and shifts wrap at 256 bits. -/
def GetNextWorkRequired_V1 (pindexLast : List Block) (pblock : Header) (p : Params) :
    Option Nat :=
  let nProofOfWorkLimit := getCompact p.proofOfWorkLimit
  match pindexLast with
  | [] => some nProofOfWorkLimit
  | tip :: rest =>
    let nHeight : Int := tip.nHeight + 1
    let nTargetSpacing := v1Spacing p nHeight
    let nTargetTimespan := v1Timespan p nHeight
    let nInterval := v1Interval p nHeight
    if Int.tmod nHeight nInterval ≠ 0 then
      if p.allowMinDifficultyBlocks then
        if pblock.nTime > tip.nTime + nTargetSpacing * 2 then some nProofOfWorkLimit
        else some (minDiffWalk (tip :: rest) nInterval nProofOfWorkLimit)
      else some tip.nBits
    else
      let blockstogoback := if nHeight ≠ nInterval then nInterval else nInterval - 1
      match walkBack (tip :: rest) blockstogoback with
      | none => none
      | some pindexFirst =>
        let nActualTimespan := tip.nTime - pindexFirst.nTime
        let nActualTimespan :=
          if nActualTimespan < Int.tdiv nTargetTimespan 4 then Int.tdiv nTargetTimespan 4
          else nActualTimespan
        let nActualTimespan :=
          if nActualTimespan > nTargetTimespan * 4 then nTargetTimespan * 4 else nActualTimespan
        let bnNew := setCompact tip.nBits
        let fShift := 235 < bitLen bnNew
        let bnNew := if fShift then bnNew >>> 1 else bnNew
        let bnNew := (bnNew * nActualTimespan.toNat) % 2 ^ 256
        let bnNew := bnNew / nTargetTimespan.toNat
        let bnNew := if fShift then (bnNew <<< 1) % 2 ^ 256 else bnNew
        let bnNew := if bnNew > p.proofOfWorkLimit then p.proofOfWorkLimit else bnNew
        some (getCompact bnNew)

/-- Proof-of-work check `CheckProofOfWork` (src/pow.cpp lines 526-546): the
skip flag short-circuits to success; otherwise the compact target must decode
to a positive, non-overflowing value within the limit, and the hash (read as a
256-bit unsigned integer) must not exceed it. -/
def CheckProofOfWork (hash : Nat) (nBits : Nat) (p : Params) : Bool :=
  if p.skipProofOfWorkCheck then true
  else if compactNegative nBits ∨ setCompact nBits = 0 ∨ compactOverflow nBits ∨
      setCompact nBits > p.proofOfWorkLimit then false
  else if hash > setCompact nBits then false
  else true

/-- Accumulator record for the `DarkGravityWave2` walk (src/pow.cpp lines
587-620).  `PastDifficultyAveragePrev` and `nBlockTimeAveragePrev` always
equal the current averages after each iteration and are collapsed into
them. -/
structure Dgw2State where
  countBlocks : Int
  pastDifficultyAverage : Int
  nBlockTimeAverage : Int
  nBlockTimeCount : Int
  nBlockTimeSum2 : Int
  nBlockTimeCount2 : Int
  lastBlockTime : Int

/-- The backward walk of `DarkGravityWave2` (src/pow.cpp lines 587-620),
gathering the windowed difficulty average and the block-time statistics. -/
def dgw2Loop : List Block → Nat → Dgw2State → Dgw2State
  | [], _, s => s
  | b :: t, i, s =>
    if b.nHeight ≤ 0 then s
    else if 140 < i then s
    else
      let countBlocks := s.countBlocks + 1
      let avg :=
        if countBlocks ≤ 14 then
          if countBlocks = 1 then bigSetCompact b.nBits
          else
            Int.tdiv (bigSetCompact b.nBits - s.pastDifficultyAverage) countBlocks +
              s.pastDifficultyAverage
        else s.pastDifficultyAverage
      let s' :=
        if 0 < s.lastBlockTime then
          let diff := s.lastBlockTime - b.nTime
          let bt :=
            if s.nBlockTimeCount ≤ 14 then
              let c := s.nBlockTimeCount + 1
              ((if c = 1 then diff else Int.tdiv (diff - s.nBlockTimeAverage) c + s.nBlockTimeAverage), c)
            else (s.nBlockTimeAverage, s.nBlockTimeCount)
          { s with
            nBlockTimeAverage := bt.1
            nBlockTimeCount := bt.2
            nBlockTimeSum2 := s.nBlockTimeSum2 + diff
            nBlockTimeCount2 := s.nBlockTimeCount2 + 1 }
        else s
      dgw2Loop t (i + 1)
        { s' with
          countBlocks := countBlocks
          pastDifficultyAverage := avg
          lastBlockTime := b.nTime }

/-- Truncation of a rational toward zero, as a C++ cast from a floating value
to `int64_t`. -/
def ratTrunc (q : ℚ) : Int := Int.tdiv q.num (q.den : Int)

/-- Difficulty algorithm `DarkGravityWave2` (src/pow.cpp lines 564-650).  The
source computes `SmartAverage`, `Shift` and the clamped timespans in `double`
and `long double`; IEEE-754 rounding is not shallowly embeddable and is
modelled here by exact rational arithmetic with the literals `0.7` and `0.3`
read as `7/10` and `3/10`.  No claim depends on the numeric output of this
function. -/
def DarkGravityWave2 (pindexLast : List Block) (pblock : Header) (p : Params) : Nat :=
  let nTargetSpacing : Int := 123
  match pindexLast with
  | [] => getCompact p.proofOfWorkLimit
  | tip :: _ =>
    if tip.nHeight = 0 ∨ tip.nHeight < 14 then getCompact p.proofOfWorkLimit
    else
      let s := dgw2Loop pindexLast 1 ⟨0, 0, 0, 0, 0, 0, 0⟩
      let bnNew := s.pastDifficultyAverage
      let bnNew :=
        if s.nBlockTimeCount ≠ 0 ∧ s.nBlockTimeCount2 ≠ 0 then
          let smartAverage : ℚ :=
            (s.nBlockTimeAverage : ℚ) * (7 / 10) +
              ((s.nBlockTimeSum2 : ℚ) / (s.nBlockTimeCount2 : ℚ)) * (3 / 10)
          let smartAverage := if smartAverage < 1 then 1 else smartAverage
          let shiftQ : ℚ := (nTargetSpacing : ℚ) / smartAverage
          let fActualTimespan : ℚ := ((s.countBlocks : ℚ) * (nTargetSpacing : ℚ)) / shiftQ
          let fTargetTimespan : ℚ := (s.countBlocks : ℚ) * (nTargetSpacing : ℚ)
          let fActualTimespan :=
            if fActualTimespan < fTargetTimespan / 3 then fTargetTimespan / 3 else fActualTimespan
          let fActualTimespan :=
            if fActualTimespan > fTargetTimespan * 3 then fTargetTimespan * 3 else fActualTimespan
          let nActualTimespan := ratTrunc fActualTimespan
          let nTargetTimespan := ratTrunc fTargetTimespan
          Int.tdiv (bnNew * nActualTimespan) nTargetTimespan
        else bnNew
      let bnNew :=
        if bigGetCompact bnNew > getCompact p.proofOfWorkLimit then
          bigSetCompact (getCompact p.proofOfWorkLimit)
        else bnNew
      bigGetCompact bnNew

/-- The backward walk of `DarkGravityWave3` (src/pow.cpp lines 675-696):
visits at most 24 blocks, maintaining the block count, the weighted
difficulty average and the accumulated timespan
`nActualTimespan += LastBlockTime - BlockReading->GetBlockTime()`.
`PastDifficultyAveragePrev` always equals the current average after each
iteration and is collapsed into it.  Returns
(`CountBlocks`, `PastDifficultyAverage`, `nActualTimespan`). -/
def dgw3Loop : List Block → Nat → Int → Int → Int → Int → Int × Int × Int
  | [], _, countBlocks, avg, _, act => (countBlocks, avg, act)
  | b :: t, i, countBlocks, avg, lastBlockTime, act =>
    if b.nHeight ≤ 0 then (countBlocks, avg, act)
    else if 24 < i then (countBlocks, avg, act)
    else
      let countBlocks' := countBlocks + 1
      let avg' :=
        if countBlocks' ≤ 24 then
          if countBlocks' = 1 then bigSetCompact b.nBits
          else Int.tdiv (avg * countBlocks' + bigSetCompact b.nBits) (countBlocks' + 1)
        else avg
      let act' := if 0 < lastBlockTime then act + (lastBlockTime - b.nTime) else act
      dgw3Loop t (i + 1) countBlocks' avg' b.nTime act'

/-- Difficulty algorithm `DarkGravityWave3` (src/pow.cpp lines 653-739):
24-block windowed weighted average with the timespan clamped to one third /
three times the target span, followed by the compact-level clamp to the
proof-of-work limit. -/
def DarkGravityWave3 (pindexLast : List Block) (pblock : Header) (p : Params) : Nat :=
  match pindexLast with
  | [] => getCompact p.proofOfWorkLimit
  | tip :: _ =>
    if tip.nHeight = 0 ∨ tip.nHeight < 24 then getCompact p.proofOfWorkLimit
    else
      let r := dgw3Loop pindexLast 1 0 0 0 0
      let countBlocks := r.1
      let bnNew := r.2.1
      let nActualTimespan := r.2.2
      let bnPowLimit : Int := (p.proofOfWorkLimit : Int)
      if bnNew = 0 ∨ bnNew > bnPowLimit then bigGetCompact bnPowLimit
      else
        let nTargetTimespan := countBlocks * 123
        let nActualTimespan :=
          if nActualTimespan < Int.tdiv nTargetTimespan 3 then Int.tdiv nTargetTimespan 3
          else nActualTimespan
        let nActualTimespan :=
          if nActualTimespan > nTargetTimespan * 3 then nTargetTimespan * 3 else nActualTimespan
        let bnNew := Int.tdiv (bnNew * nActualTimespan) nTargetTimespan
        let bnNew :=
          if bigGetCompact bnNew > getCompact p.proofOfWorkLimit then
            bigSetCompact (getCompact p.proofOfWorkLimit)
          else bnNew
        bigGetCompact bnNew

/-- The ASERT cubic-factor approximation of `2 ^ (frac / 65536) * 65536`,
in exact (at least 128-bit) arithmetic as prescribed by the spec, section 4.D
step 6. -/
def asertFactor (frac : Nat) : Nat :=
  65536 +
    ((195766423245049 * frac + 971821376 * frac * frac + 5127 * frac * frac * frac + 2 ^ 47) >>> 48)

/-- The ASERT cubic factor as computed by the source in wrapping `uint64_t`
arithmetic (src/pow.cpp lines 201-202 and 781-782). -/
def asertFactorU64 (frac : Nat) : Nat :=
  (65536 +
      (((195766423245049 * frac + 971821376 * frac * frac + 5127 * frac * frac * frac + 2 ^ 47) %
            2 ^ 64) >>>
        48)) %
    2 ^ 64

/-- The ASERT exponent in exact integer arithmetic as prescribed by the spec,
section 4.D step 4 (division truncating toward zero, as C++ `/`). -/
def asertExponent (nPowTargetSpacing nTimeDiff nHeightDiff nHalfLife : Int) : Int :=
  Int.tdiv ((nTimeDiff - nPowTargetSpacing * (nHeightDiff + 1)) * 65536) nHalfLife

/-- The ASERT exponent as computed by the source in wrapping `int64_t`
arithmetic (src/pow.cpp line 194 and line 774). -/
def asertExponentI64 (nPowTargetSpacing nTimeDiff nHeightDiff nHalfLife : Int) : Int :=
  wrap64
    (Int.tdiv (wrap64 (wrap64 (nTimeDiff - wrap64 (nPowTargetSpacing * wrap64 (nHeightDiff + 1))) * 65536))
      nHalfLife)

/-- The integer-shift step shared by src/pow.cpp lines 207-219 and the spec,
section 4.D step 8: right shift for non-positive `shifts`, else left shift on
the 256-bit type with overflow detected by shifting back, overflow clamping to
the limit. -/
def asertApplyShifts (nextTarget : Nat) (shifts : Int) (powLimit : Nat) : Nat :=
  if shifts ≤ 0 then nextTarget >>> (-shifts).toNat
  else
    let nextTargetShifted := (nextTarget <<< shifts.toNat) % 2 ^ 256
    if nextTargetShifted >>> shifts.toNat ≠ nextTarget then powLimit else nextTargetShifted

/-- The final clamp shared by src/pow.cpp lines 221-227 and the spec, section
4.D step 9: zero becomes one, values above the limit become the limit. -/
def asertClamp (nextTarget powLimit : Nat) : Nat :=
  if nextTarget = 0 then 1 else if nextTarget > powLimit then powLimit else nextTarget

/-- ASERT target computation `CalculateASERT` (src/pow.cpp lines 167-231).
The source ignores its `powLimit2` argument and re-reads
`Params().ProofOfWorkLimit()`; the early guard returns the limit itself when
the reference target is out of range.  The `frac` extraction
`uint16_t(exponent & 0xFFFF)` is the two's-complement low 16 bits, i.e.
`Int.emod exponent 65536`; the factor narrows to `uint32_t`. -/
def CalculateASERT (refTarget : Nat) (nPowTargetSpacing nTimeDiff nHeightDiff : Int)
    (powLimit2 : Nat) (nHalfLife : Int) (p : Params) : Nat :=
  let powLimit := p.proofOfWorkLimit
  if ¬(0 < refTarget ∧ refTarget ≤ powLimit) then powLimit
  else
    let exponent := asertExponentI64 nPowTargetSpacing nTimeDiff nHeightDiff nHalfLife
    let shifts := Int.fdiv exponent 65536
    let frac := (Int.emod exponent 65536).toNat
    let factor := asertFactorU64 frac % 2 ^ 32
    let nextTarget := (refTarget * factor) % 2 ^ 256
    asertClamp (asertApplyShifts nextTarget (shifts - 16) powLimit) powLimit

/-- Modelled from the spec, section 4.D steps 4-9: the ASERT computation in
exact integer arithmetic (the 256-bit left-shift overflow detection of step 8
and the clamps of step 9 as the spec prescribes them). -/
def asertSpec (refTarget : Nat) (nPowTargetSpacing nTimeDiff nHeightDiff : Int) (powLimit : Nat)
    (nHalfLife : Int) : Nat :=
  let exponent := asertExponent nPowTargetSpacing nTimeDiff nHeightDiff nHalfLife
  let shifts := Int.fdiv exponent 65536
  let frac := (Int.emod exponent 65536).toNat
  let nextTarget := refTarget * asertFactor frac
  asertClamp (asertApplyShifts nextTarget (shifts - 16) powLimit) powLimit

/-- The post-anchor computation of `GravityAsert` (src/pow.cpp lines 765-813):
time and height differences against the anchor, the wrapped `int64_t`
exponent, the `uint64_t` cubic factor, `CBigNum` shifts (sign-magnitude,
arbitrary precision, no overflow), the clamp against the
compact-round-tripped limit, then the zero clamp, and the compact encoding of
the result. -/
def gravityAsertCore (pindexLast pindexAnchor : Block) (p : Params) : Nat :=
  let nHalfLife : Int := 2 * 3600
  let nPowTargetSpacing : Int := 123
  let nTimeDiff := wrap64 (pindexLast.nTime - pindexAnchor.nTime)
  let nHeightDiff := wrap32 (pindexLast.nHeight - pindexAnchor.nHeight)
  let bnAnchorTarget := bigSetCompact pindexAnchor.nBits
  let exponent := asertExponentI64 nPowTargetSpacing nTimeDiff nHeightDiff nHalfLife
  let shifts := Int.fdiv exponent 65536
  let frac := (Int.emod exponent 65536).toNat
  let factor := asertFactorU64 frac
  let bnNext := bnAnchorTarget * (factor : Int)
  let shifts := shifts - 16
  let bnNext :=
    if shifts < 0 then bigShr bnNext (-shifts).toNat
    else if shifts > 0 then bigShl bnNext shifts.toNat
    else bnNext
  let bnPowLimit := bigSetCompact (getCompact p.proofOfWorkLimit)
  let bnNext := if bnNext > bnPowLimit then bnPowLimit else bnNext
  let bnNext := if bnNext = 0 then 1 else bnNext
  bigGetCompact bnNext

/-- Difficulty algorithm `GravityAsert` (src/pow.cpp lines 742-814): the
anchor height 2996106 is a hardcoded constant; below it, or when the walk does
not stop exactly on it, the compact proof-of-work limit is returned. -/
def GravityAsert (pindexLast : List Block) (pblock : Header) (p : Params) : Nat :=
  let nAnchorHeight : Int := 2996106
  match pindexLast with
  | [] => getCompact p.proofOfWorkLimit
  | tip :: rest =>
    if tip.nHeight < nAnchorHeight then getCompact p.proofOfWorkLimit
    else
      match anchorWalk nAnchorHeight (tip :: rest) with
      | none => getCompact p.proofOfWorkLimit
      | some pindexAnchor =>
        if pindexAnchor.nHeight ≠ nAnchorHeight then getCompact p.proofOfWorkLimit
        else gravityAsertCore tip pindexAnchor p

/-- The `DiffMode` selection of `GetNextWorkRequired` (src/pow.cpp lines
383-398), written as the source's sequence of overwrites.  On networks that
do not require standardness the inner branch re-assigns the initial value 1
and is a no-op. -/
def diffMode (requireStandard : Bool) (h : Int) : Nat :=
  if requireStandard then
    let dm := 1
    let dm := if 120000 ≤ h then 4 else dm
    let dm := if 126000 ≤ h then 5 else dm
    let dm := if 4000000 ≤ h then 6 else dm
    dm
  else 1

/-- Dispatcher `GetNextWorkRequired` (src/pow.cpp lines 381-425).  The
"hypothetical ASERT" block at heights at or above 2996105 only logs and does
not affect the result; a null `pindexLast` (empty chain) dereferences and is
modelled as `none`. -/
def GetNextWorkRequired (pindexLast : List Block) (pblock : Header) (p : Params) : Option Nat :=
  match pindexLast with
  | [] => none
  | tip :: _ =>
    let dm := diffMode p.requireStandard (tip.nHeight + 1)
    if dm = 1 then GetNextWorkRequired_V1 pindexLast pblock p
    else if dm = 4 then some (DarkGravityWave2 pindexLast pblock p)
    else if dm = 5 then some (DarkGravityWave3 pindexLast pblock p)
    else if dm = 6 then some (GravityAsert pindexLast pblock p)
    else some (DarkGravityWave3 pindexLast pblock p)


/-- Chain generator for concrete test chains: `n` blocks with consecutive
descending heights, timestamps descending by `gap`, constant compact
target. -/
def mkChain (nHeight nTime gap : Int) (nb : Nat) : Nat → List Block
  | 0 => []
  | n + 1 => ⟨nHeight, nTime, nb⟩ :: mkChain (nHeight - 1) (nTime - gap) gap nb n

/-- Parameter record with a proof-of-work limit below `2 ^ 224`, satisfying
the `CalculateASERT` precondition `(powLimit >> 224) == 0`. -/
def asertParams : Params := { mainParams with proofOfWorkLimit := 2 ^ 223 - 1 }

/-- Main-network parameters with the regtest `fPowNoRetargeting` flag set
(src/kernel/chainparams.cpp line 580 sets it on regtest). -/
def noRetargetParams : Params := { mainParams with fPowNoRetargeting := true }

/-- Parameter record with the proof-of-work check skipped. -/
def skipParams : Params := { mainParams with skipProofOfWorkCheck := true }

/-- Modelled from the spec: a network that does not require standardness
(testnet / regtest), with the testnet min-difficulty escape hatch. -/
def nonStdParams : Params :=
  { mainParams with requireStandard := false, allowMinDifficultyBlocks := true }

/-- Small parameters for exercising the V1 retarget boundary:
`interval = 40 / 10 = 4`. -/
def v1Params : Params := { mainParams with targetTimespan := 40, targetSpacing := 10 }

/-- A candidate header with timestamp zero (the proof-of-work functions read
the candidate header only in V1's testnet branch). -/
def hdr0 : Header := ⟨0⟩

/-- Tip at height 2999999 whose 25-block ancestor chain contains no node at
height 2996106 (nor at 2999999's claimed anchor band boundaries). -/
def c1chain : List Block := mkChain 2999999 1000000 123 0x1d00ffff 25

/-- Tip at height 2996130 whose 25th ancestor is exactly the hardcoded ASERT
anchor height 2996106, with uniform 123-second spacing. -/
def c3chain : List Block := mkChain 2996130 1000000 123 0x1d00ffff 25

/-- Tip at height 126000 with 24 ancestors at exact 123-second gaps. -/
def c4chain : List Block := mkChain 126000 1000000 123 0x1d00ffff 25

/-- Tip at height 199999 (DGW3 band) whose blocks all decode to target 1 and
share one timestamp. -/
def c7chain : List Block := mkChain 199999 500000 0 0x01010000 25

/-- Five-block chain ending a `v1Params` retarget period (tip height 7, next
height 8, interval 4). -/
def v1chain : List Block := mkChain 7 1000 10 0x1d00ffff 5

/-- Modelled from the spec, section 4.D (V1 retarget boundaries): the
claim's prescription in exact integer arithmetic — the actual timespan
clamped into `[timespan/4, timespan*4]`, the decoded tip target with the
one-bit overflow guard (right shift before the multiply and left shift after
exactly when the bit count exceeds 235), the retarget product
`target * actual / timespan`, and the clamp to the proof-of-work limit. -/
def v1RetargetSpec (tip first : Block) (p : Params) : Nat :=
  let nHeight := tip.nHeight + 1
  let nTargetTimespan := v1Timespan p nHeight
  let actual := max (Int.tdiv nTargetTimespan 4)
    (min (tip.nTime - first.nTime) (nTargetTimespan * 4))
  let target := setCompact tip.nBits
  let fShift := 235 < bitLen target
  let t1 := if fShift then target >>> 1 else target
  let t2 := t1 * actual.toNat / nTargetTimespan.toNat
  let t3 := if fShift then t2 <<< 1 else t2
  min t3 p.proofOfWorkLimit

/-! Helper lemmas: binary length. -/

lemma bitLenAux_le_iff (fuel : Nat) : ∀ n m : Nat, n < 2 ^ fuel → (bitLenAux fuel n ≤ m ↔ n < 2 ^ m) := by
  induction fuel with
  | zero =>
    intro n m h
    simp only [pow_zero] at h
    replace h : n = 0 := by omega
    subst h
    simp [bitLenAux, Nat.pos_pow_of_pos]
  | succ k ih =>
    intro n m h
    unfold bitLenAux
    by_cases h0 : n = 0
    · subst h0
      simp
    · rw [if_neg h0]
      cases m with
      | zero => simp; omega
      | succ m' =>
        rw [Nat.succ_le_succ_iff, ih (n / 2) m' (by rw [pow_succ] at h; omega)]
        rw [pow_succ]
        omega

lemma bitLen_le_iff (n m : Nat) (h : n < 2 ^ 8192) : bitLen n ≤ m ↔ n < 2 ^ m :=
  bitLenAux_le_iff 8192 n m h

lemma le_bitLen_iff (n m : Nat) (h : n < 2 ^ 8192) : m < bitLen n ↔ 2 ^ m ≤ n := by
  rw [← Nat.not_le, bitLen_le_iff n m h, Nat.not_lt]

/-! Helper lemmas: the compact encoding. -/

lemma lor_small (a z : Nat) (ha : a < 2 ^ 24) : a ||| (z <<< 24) = a + z * 2 ^ 24 := by
  have h24 : a + z * 2 ^ 24 = 2 ^ 24 * z + a := by ring
  apply Nat.eq_of_testBit_eq
  intro i
  rw [Nat.testBit_lor, h24, Nat.testBit_mul_pow_two_add _ ha, Nat.testBit_shiftLeft]
  rcases Nat.lt_or_ge i 24 with hi | hi
  · simp [hi, Nat.not_le.mpr hi]
  · have hfalse : a.testBit i = false :=
      Nat.testBit_lt_two_pow (lt_of_lt_of_le ha (Nat.pow_le_pow_right (by norm_num) hi))
    simp [hfalse, hi, Nat.not_lt.mpr hi]

lemma compact_size (m z : Nat) (hm : m < 2 ^ 23) : (m ||| (z <<< 24)) >>> 24 = z := by
  rw [lor_small m z (by omega), Nat.shiftRight_eq_div_pow]
  omega

lemma compact_word (m z : Nat) (hm : m < 2 ^ 23) : (m ||| (z <<< 24)) &&& 0x007fffff = m := by
  rw [lor_small m z (by omega)]
  have h23 : (0x007fffff : Nat) = 2 ^ 23 - 1 := by norm_num
  rw [h23, Nat.and_pow_two_sub_one_eq_mod]
  omega

lemma compact_sign (m z : Nat) (hm : m < 2 ^ 23) : (m ||| (z <<< 24)) &&& 0x00800000 = 0 := by
  rw [lor_small m z (by omega)]
  have h23 : (0x00800000 : Nat) = 2 ^ 23 := by norm_num
  have hcomm : m + z * 2 ^ 24 = 2 ^ 24 * z + m := by ring
  rw [h23, Nat.and_two_pow, hcomm, Nat.testBit_mul_pow_two_add _ (by omega)]
  have hfalse : m.testBit 23 = false := Nat.testBit_lt_two_pow hm
  simp [hfalse]

lemma setCompact_lor (m z : Nat) (hm : m < 2 ^ 23) :
    setCompact (m ||| (z <<< 24)) =
      if z ≤ 3 then m >>> (8 * (3 - z)) else (m <<< (8 * (z - 3))) % 2 ^ 256 := by
  unfold setCompact
  rw [compact_size m z hm, compact_word m z hm]

lemma bigSetCompact_lor (m z : Nat) (hm : m < 2 ^ 23) :
    bigSetCompact (m ||| (z <<< 24)) =
      ((if z ≤ 3 then m >>> (8 * (3 - z)) else m <<< (8 * (z - 3)) : Nat) : Int) := by
  unfold bigSetCompact
  rw [compact_size m z hm, compact_word m z hm, compact_sign m z hm]
  simp

lemma bit23_set (c : Nat) (hlt : c < 2 ^ 24) (h : c &&& 0x00800000 ≠ 0) : 2 ^ 23 ≤ c := by
  by_contra hc
  push_neg at hc
  have h23 : (0x00800000 : Nat) = 2 ^ 23 := by norm_num
  rw [h23, Nat.and_two_pow, Nat.testBit_lt_two_pow hc] at h
  simp at h

lemma bit23_clear (c : Nat) (hlt : c < 2 ^ 24) (h : ¬c &&& 0x00800000 ≠ 0) : c < 2 ^ 23 := by
  push_neg at h
  by_contra hc
  push_neg at hc
  have h23 : (0x00800000 : Nat) = 2 ^ 23 := by norm_num
  rw [h23, Nat.and_two_pow] at h
  have : c.testBit 23 = true := by
    rw [Nat.testBit_to_div_mod]
    simp only [decide_eq_true_eq]
    omega
  rw [this] at h
  simp at h

lemma setCompact_getCompact (x : Nat) (hx : 1 ≤ x) (hx2 : x < 2 ^ 256) :
    ∃ r : Nat, setCompact (getCompact x) = x / 2 ^ r * 2 ^ r ∧ 2 ^ r ≤ x ∧
      bigSetCompact (getCompact x) = ((setCompact (getCompact x) : Nat) : Int) ∧
      getCompact x &&& 0x00800000 = 0 := by
  have hbig : x < 2 ^ 8192 := lt_of_lt_of_le hx2 (by norm_num)
  have hxlt : x < 2 ^ bitLen x := (bitLen_le_iff x (bitLen x) hbig).mp le_rfl
  have hs1 : 1 ≤ bitLen x := by
    rcases Nat.lt_or_ge 0 (bitLen x) with h | h
    · omega
    · exfalso
      have := (bitLen_le_iff x 0 hbig).mp (by omega)
      omega
  have hsle : bitLen x ≤ 256 := (bitLen_le_iff x 256 hbig).mpr hx2
  have hxge : 2 ^ (bitLen x - 1) ≤ x := (le_bitLen_iff x (bitLen x - 1) hbig).mp (by omega)
  simp only [getCompact]
  set s := bitLen x with hs
  set B := (s + 7) / 8 with hB
  have hsB : s ≤ 8 * B ∧ 8 * B ≤ s + 7 := by omega
  by_cases hB3 : B ≤ 3
  · rw [if_pos hB3]
    have hc : x <<< (8 * (3 - B)) = x * 2 ^ (8 * (3 - B)) := Nat.shiftLeft_eq _ _
    have hxB : x < 2 ^ (8 * B) := lt_of_lt_of_le hxlt (Nat.pow_le_pow_right (by norm_num) (by omega))
    have hclt : x * 2 ^ (8 * (3 - B)) < 2 ^ 24 := by
      calc x * 2 ^ (8 * (3 - B)) < 2 ^ (8 * B) * 2 ^ (8 * (3 - B)) := by
            exact Nat.mul_lt_mul_of_lt_of_le hxB (le_refl _) (Nat.pos_pow_of_pos _ (by norm_num))
        _ = 2 ^ (8 * B + 8 * (3 - B)) := (pow_add 2 _ _).symm
        _ ≤ 2 ^ 24 := Nat.pow_le_pow_right (by norm_num) (by omega)
    by_cases hsign : x <<< (8 * (3 - B)) &&& 0x00800000 ≠ 0
    · rw [if_pos hsign]
      have hcge : 2 ^ 23 ≤ x * 2 ^ (8 * (3 - B)) := by
        rw [hc] at hsign
        exact bit23_set _ hclt hsign
      have hmval : x <<< (8 * (3 - B)) >>> 8 = x * 2 ^ (8 * (3 - B)) / 2 ^ 8 := by
        rw [hc, Nat.shiftRight_eq_div_pow]
      have hm : x <<< (8 * (3 - B)) >>> 8 < 2 ^ 23 := by
        rw [hmval]
        have : x * 2 ^ (8 * (3 - B)) / 2 ^ 8 < 2 ^ 16 := by
          rw [Nat.div_lt_iff_lt_mul (by norm_num)]
          calc x * 2 ^ (8 * (3 - B)) < 2 ^ 24 := hclt
            _ = 2 ^ 16 * 2 ^ 8 := by norm_num
        omega
      rw [setCompact_lor _ _ hm, bigSetCompact_lor _ _ hm]
      by_cases hz : B + 1 ≤ 3
      · -- B ≤ 2 : the encoding is exact, r = 0
        rw [if_pos hz, if_pos hz]
        refine ⟨0, ?_, by simpa using hx, rfl, compact_sign _ _ hm⟩
        rw [hmval, Nat.shiftRight_eq_div_pow, Nat.div_div_eq_div_mul, ← pow_add]
        have he : 8 + 8 * (3 - (B + 1)) = 8 * (3 - B) := by omega
        rw [he, Nat.mul_div_cancel _ (Nat.pos_pow_of_pos _ (by norm_num))]
        simp
      · -- B = 3 : mantissa loses the low byte, r = 8
        rw [if_neg hz, if_neg hz]
        have hBeq : B = 3 := by omega
        have hzero : 8 * (3 - B) = 0 := by omega
        have hz8 : 8 * (B + 1 - 3) = 8 := by omega
        refine ⟨8, ?_, ?_, ?_, compact_sign _ _ hm⟩
        · rw [Nat.shiftLeft_eq, hmval, hzero, hz8]
          simp only [pow_zero, Nat.mul_one]
          rw [Nat.mod_eq_of_lt]
          have hle : x / 2 ^ 8 * 2 ^ 8 ≤ x := Nat.div_mul_le_self x (2 ^ 8)
          omega
        · rw [hzero] at hcge
          simp only [pow_zero, Nat.mul_one] at hcge
          calc (2 : Nat) ^ 8 ≤ 2 ^ 23 := by norm_num
            _ ≤ x := hcge
        · rw [Nat.shiftLeft_eq, hmval, hzero, hz8]
          simp only [pow_zero, Nat.mul_one]
          rw [Nat.mod_eq_of_lt]
          have hle : x / 2 ^ 8 * 2 ^ 8 ≤ x := Nat.div_mul_le_self x (2 ^ 8)
          omega
    · rw [if_neg hsign]
      have hclt23 : x * 2 ^ (8 * (3 - B)) < 2 ^ 23 := by
        rw [hc] at hsign
        exact bit23_clear _ hclt hsign
      have hm : x <<< (8 * (3 - B)) < 2 ^ 23 := by rw [hc]; exact hclt23
      rw [setCompact_lor _ _ hm, bigSetCompact_lor _ _ hm, if_pos hB3, if_pos hB3]
      refine ⟨0, ?_, by simpa using hx, rfl, compact_sign _ _ hm⟩
      rw [hc, Nat.shiftRight_eq_div_pow, Nat.mul_div_cancel _ (Nat.pos_pow_of_pos _ (by norm_num))]
      simp
  · rw [if_neg hB3]
    have hcval : x >>> (8 * (B - 3)) = x / 2 ^ (8 * (B - 3)) := Nat.shiftRight_eq_div_pow _ _
    have hxB : x < 2 ^ (8 * B) := lt_of_lt_of_le hxlt (Nat.pow_le_pow_right (by norm_num) (by omega))
    have hclt : x / 2 ^ (8 * (B - 3)) < 2 ^ 24 := by
      rw [Nat.div_lt_iff_lt_mul (Nat.pos_pow_of_pos _ (by norm_num)), ← pow_add]
      exact lt_of_lt_of_le hxB (Nat.pow_le_pow_right (by norm_num) (by omega))
    have hcge : 2 ^ 16 ≤ x / 2 ^ (8 * (B - 3)) := by
      have h8 : 2 ^ (8 * B - 8) ≤ x := le_trans (Nat.pow_le_pow_right (by norm_num) (by omega)) hxge
      have : 2 ^ (8 * B - 8) / 2 ^ (8 * (B - 3)) ≤ x / 2 ^ (8 * (B - 3)) :=
        Nat.div_le_div_right h8
      calc (2 : Nat) ^ 16 = 2 ^ (8 * B - 8) / 2 ^ (8 * (B - 3)) := by
            rw [Nat.pow_div (by omega) (by norm_num)]
            congr 1
            omega
        _ ≤ x / 2 ^ (8 * (B - 3)) := this
    by_cases hsign : x >>> (8 * (B - 3)) &&& 0x00800000 ≠ 0
    · rw [if_pos hsign]
      have hcge23 : 2 ^ 23 ≤ x / 2 ^ (8 * (B - 3)) := by
        rw [hcval] at hsign
        exact bit23_set _ hclt hsign
      have hmval : x >>> (8 * (B - 3)) >>> 8 = x / 2 ^ (8 * (B - 3) + 8) := by
        rw [hcval, Nat.shiftRight_eq_div_pow, Nat.div_div_eq_div_mul, ← pow_add]
      have hm : x >>> (8 * (B - 3)) >>> 8 < 2 ^ 23 := by
        rw [hmval]
        have : x / 2 ^ (8 * (B - 3) + 8) ≤ x / 2 ^ (8 * (B - 3)) / 2 ^ 8 := by
          rw [Nat.div_div_eq_div_mul, ← pow_add]
        calc x / 2 ^ (8 * (B - 3) + 8) = x / 2 ^ (8 * (B - 3)) / 2 ^ 8 := by
              rw [Nat.div_div_eq_div_mul, ← pow_add]
          _ < 2 ^ 16 := by
              rw [Nat.div_lt_iff_lt_mul (by norm_num)]
              calc x / 2 ^ (8 * (B - 3)) < 2 ^ 24 := hclt
                _ = 2 ^ 16 * 2 ^ 8 := by norm_num
          _ < 2 ^ 23 := by norm_num
      rw [setCompact_lor _ _ hm, bigSetCompact_lor _ _ hm]
      have hz : ¬(B + 1 ≤ 3) := by omega
      rw [if_neg hz, if_neg hz]
      have hz8 : 8 * (B + 1 - 3) = 8 * (B - 3) + 8 := by omega
      have hval : x >>> (8 * (B - 3)) >>> 8 <<< (8 * (B + 1 - 3)) =
          x / 2 ^ (8 * (B - 3) + 8) * 2 ^ (8 * (B - 3) + 8) := by
        rw [Nat.shiftLeft_eq, hmval, hz8]
      have hle : x / 2 ^ (8 * (B - 3) + 8) * 2 ^ (8 * (B - 3) + 8) ≤ x :=
        Nat.div_mul_le_self x _
      refine ⟨8 * (B - 3) + 8, ?_, ?_, ?_, compact_sign _ _ hm⟩
      · rw [hval, Nat.mod_eq_of_lt (by omega)]
      · calc (2 : Nat) ^ (8 * (B - 3) + 8) ≤ 2 ^ (s - 1) := Nat.pow_le_pow_right (by norm_num) (by omega)
          _ ≤ x := hxge
      · rw [hval, Nat.mod_eq_of_lt (by omega)]
    · rw [if_neg hsign]
      have hclt23 : x / 2 ^ (8 * (B - 3)) < 2 ^ 23 := by
        rw [hcval] at hsign
        exact bit23_clear _ hclt hsign
      have hm : x >>> (8 * (B - 3)) < 2 ^ 23 := by rw [hcval]; exact hclt23
      rw [setCompact_lor _ _ hm, bigSetCompact_lor _ _ hm, if_neg hB3, if_neg hB3]
      have hval : x >>> (8 * (B - 3)) <<< (8 * (B - 3)) =
          x / 2 ^ (8 * (B - 3)) * 2 ^ (8 * (B - 3)) := by
        rw [Nat.shiftLeft_eq, hcval]
      have hle : x / 2 ^ (8 * (B - 3)) * 2 ^ (8 * (B - 3)) ≤ x := Nat.div_mul_le_self x _
      refine ⟨8 * (B - 3), ?_, ?_, ?_, compact_sign _ _ hm⟩
      · rw [hval, Nat.mod_eq_of_lt (by omega)]
      · calc (2 : Nat) ^ (8 * (B - 3)) ≤ 2 ^ (s - 1) := Nat.pow_le_pow_right (by norm_num) (by omega)
          _ ≤ x := hxge
      · rw [hval, Nat.mod_eq_of_lt (by omega)]

/-! Helper lemmas: compact round trip corollaries. -/

lemma setCompact_getCompact_le (x : Nat) (hx : 1 ≤ x) (hx2 : x < 2 ^ 256) :
    setCompact (getCompact x) ≤ x := by
  obtain ⟨r, h1, _, _⟩ := setCompact_getCompact x hx hx2
  rw [h1]
  exact Nat.div_mul_le_self x _

lemma setCompact_getCompact_pos (x : Nat) (hx : 1 ≤ x) (hx2 : x < 2 ^ 256) :
    1 ≤ setCompact (getCompact x) := by
  obtain ⟨r, h1, h2, _⟩ := setCompact_getCompact x hx hx2
  rw [h1]
  have hd : 1 ≤ x / 2 ^ r := (Nat.one_le_div_iff (Nat.pos_pow_of_pos _ (by norm_num))).mpr h2
  calc 1 ≤ 2 ^ r := Nat.one_le_two_pow
    _ = 1 * 2 ^ r := (one_mul _).symm
    _ ≤ x / 2 ^ r * 2 ^ r := Nat.mul_le_mul_right _ hd

lemma bigSetCompact_getCompact (x : Nat) (hx : 1 ≤ x) (hx2 : x < 2 ^ 256) :
    bigSetCompact (getCompact x) = ((setCompact (getCompact x) : Nat) : Int) := by
  obtain ⟨_, _, _, h, _⟩ := setCompact_getCompact x hx hx2
  exact h

lemma getCompact_not_negative (x : Nat) (hx : 1 ≤ x) (hx2 : x < 2 ^ 256) :
    ¬compactNegative (getCompact x) := by
  obtain ⟨_, _, _, _, hsign⟩ := setCompact_getCompact x hx hx2
  intro hneg
  exact hneg.2 hsign

/-! Helper lemmas: machine-integer wrapping. -/

lemma wrap64_eq_self (x : Int) (h1 : -2 ^ 63 ≤ x) (h2 : x < 2 ^ 63) : wrap64 x = x := by
  unfold wrap64
  omega

lemma wrap64_congr (x y : Int) (h : x % 2 ^ 64 = y % 2 ^ 64) : wrap64 x = wrap64 y := by
  unfold wrap64
  omega

lemma wrap64_emod (x : Int) : wrap64 x % 2 ^ 64 = x % 2 ^ 64 := by
  unfold wrap64
  omega

lemma wrap64_sub_wrap64 (a b : Int) : wrap64 (a - wrap64 b) = wrap64 (a - b) := by
  apply wrap64_congr
  have h := wrap64_emod b
  omega

lemma wrap64_mul_wrap64 (a b : Int) : wrap64 (a * wrap64 b) = wrap64 (a * b) := by
  apply wrap64_congr
  conv_lhs => rw [Int.mul_emod]
  conv_rhs => rw [Int.mul_emod]
  rw [wrap64_emod]

/-! Helper lemmas: shifts on `Nat`. -/

lemma shiftLeft_mod_two_pow_eq_zero (n k : Nat) (h : 256 ≤ k) : (n <<< k) % 2 ^ 256 = 0 := by
  rw [Nat.shiftLeft_eq]
  have he : k = (k - 256) + 256 := by omega
  rw [he, pow_add, ← mul_assoc, Nat.mul_mod_left]

lemma shiftRight_eq_zero (n k : Nat) (h : n < 2 ^ k) : n >>> k = 0 := by
  rw [Nat.shiftRight_eq_div_pow]
  exact Nat.div_eq_of_lt h

/-! Helper lemmas: the ASERT cubic factor. -/

lemma asertPoly_lt (f : Nat) (hf : f < 65536) :
    195766423245049 * f + 971821376 * f * f + 5127 * f * f * f + 2 ^ 47 < 2 ^ 64 := by
  have hf' : f ≤ 65535 := by omega
  have h1 : 195766423245049 * f ≤ 195766423245049 * 65535 := Nat.mul_le_mul_left _ hf'
  have h2 : 971821376 * f * f ≤ 971821376 * 65535 * 65535 :=
    Nat.mul_le_mul (Nat.mul_le_mul_left _ hf') hf'
  have h3 : 5127 * f * f * f ≤ 5127 * 65535 * 65535 * 65535 :=
    Nat.mul_le_mul (Nat.mul_le_mul (Nat.mul_le_mul_left _ hf') hf') hf'
  omega

lemma asertFactorU64_eq (f : Nat) (hf : f < 65536) : asertFactorU64 f = asertFactor f := by
  unfold asertFactorU64 asertFactor
  have hlt := asertPoly_lt f hf
  rw [Nat.mod_eq_of_lt hlt]
  have hsh : (195766423245049 * f + 971821376 * f * f + 5127 * f * f * f + 2 ^ 47) >>> 48 < 2 ^ 16 := by
    rw [Nat.shiftRight_eq_div_pow]
    rw [Nat.div_lt_iff_lt_mul (by norm_num)]
    calc 195766423245049 * f + 971821376 * f * f + 5127 * f * f * f + 2 ^ 47 < 2 ^ 64 := hlt
      _ = 2 ^ 16 * 2 ^ 48 := by norm_num
  rw [Nat.mod_eq_of_lt (by omega)]

lemma asertFactor_bounds (f : Nat) (hf : f < 65536) :
    65536 ≤ asertFactor f ∧ asertFactor f ≤ 131072 := by
  unfold asertFactor
  constructor
  · omega
  · have hlt := asertPoly_lt f hf
    have hsh : (195766423245049 * f + 971821376 * f * f + 5127 * f * f * f + 2 ^ 47) >>> 48 < 2 ^ 16 := by
      rw [Nat.shiftRight_eq_div_pow, Nat.div_lt_iff_lt_mul (by norm_num)]
      calc 195766423245049 * f + 971821376 * f * f + 5127 * f * f * f + 2 ^ 47 < 2 ^ 64 := hlt
        _ = 2 ^ 16 * 2 ^ 48 := by norm_num
    omega

/-! Helper lemmas: the ASERT exponent. -/

lemma asertExponentI64_eq (nTimeDiff nHeightDiff : Int)
    (hhd0 : 0 ≤ nHeightDiff) (hhd1 : nHeightDiff + 1 < 2 ^ 63)
    (hb1 : -2 ^ 47 ≤ nTimeDiff - 123 * (nHeightDiff + 1))
    (hb2 : nTimeDiff - 123 * (nHeightDiff + 1) < 2 ^ 47) :
    asertExponentI64 123 nTimeDiff nHeightDiff 7200 =
      asertExponent 123 nTimeDiff nHeightDiff 7200 := by
  unfold asertExponentI64 asertExponent
  rw [wrap64_eq_self (nHeightDiff + 1) (by omega) hhd1]
  rw [wrap64_sub_wrap64]
  set d := nTimeDiff - 123 * (nHeightDiff + 1) with hd
  rw [wrap64_eq_self d (by omega) (by omega)]
  rw [wrap64_eq_self (d * 65536) (by omega) (by omega)]
  set q := Int.tdiv (d * 65536) 7200 with hq
  have habs : q.natAbs = (d * 65536).natAbs / 7200 := by
    rw [hq, Int.natAbs_tdiv]
    rfl
  have habs2 : (d * 65536).natAbs ≤ 2 ^ 63 := by omega
  exact wrap64_eq_self q (by omega) (by omega)

/-! Claim C2. -/

/-- C2 (amended): for every anchor target with `0 < refTarget ≤ pow_limit`
(the limit itself below `2 ^ 224` as the source asserts), every height
difference with `0 ≤ height_diff` and `height_diff + 1 < 2 ^ 63`, and every
time difference with `-2^47 ≤ time_diff - spacing * (height_diff + 1) < 2^47`,
`CalculateASERT` returns exactly the target prescribed by the spec's steps
4-9 in exact integer arithmetic (exponent, arithmetic shift split, cubic
fractional factor, shift application with overflow detection, and final
clamps). -/
theorem C2_calculateASERT_matches_spec (refTarget : Nat) (nTimeDiff nHeightDiff : Int)
    (powLimit2 : Nat) (p : Params)
    (href1 : 0 < refTarget) (href2 : refTarget ≤ p.proofOfWorkLimit)
    (hpl : p.proofOfWorkLimit < 2 ^ 224)
    (hhd0 : 0 ≤ nHeightDiff) (hhd1 : nHeightDiff + 1 < 2 ^ 63)
    (hb1 : -2 ^ 47 ≤ nTimeDiff - 123 * (nHeightDiff + 1))
    (hb2 : nTimeDiff - 123 * (nHeightDiff + 1) < 2 ^ 47) :
    CalculateASERT refTarget 123 nTimeDiff nHeightDiff powLimit2 7200 p =
      asertSpec refTarget 123 nTimeDiff nHeightDiff p.proofOfWorkLimit 7200 := by
  simp only [CalculateASERT, asertSpec]
  rw [if_neg (not_not_intro ⟨href1, href2⟩)]
  rw [asertExponentI64_eq nTimeDiff nHeightDiff hhd0 hhd1 hb1 hb2]
  set e := asertExponent 123 nTimeDiff nHeightDiff 7200 with he
  have hfrac : (Int.emod e 65536).toNat < 65536 := by
    have h1 : 0 ≤ Int.emod e 65536 := Int.emod_nonneg e (by norm_num)
    have h2 : Int.emod e 65536 < 65536 := Int.emod_lt_of_pos e (by norm_num)
    omega
  rw [asertFactorU64_eq _ hfrac]
  have hfb := asertFactor_bounds _ hfrac
  rw [Nat.mod_eq_of_lt (lt_of_le_of_lt hfb.2 (by norm_num))]
  rw [Nat.mod_eq_of_lt (show refTarget * asertFactor (Int.emod e 65536).toNat < 2 ^ 256 by
    calc refTarget * asertFactor (Int.emod e 65536).toNat ≤ 2 ^ 224 * 131072 :=
          Nat.mul_le_mul (le_of_lt (lt_of_le_of_lt href2 hpl)) hfb.2
      _ < 2 ^ 256 := by norm_num)]

/-- C2 witness: a concrete on-schedule instance. -/
theorem C2_calculateASERT_matches_spec_witness :
    CalculateASERT (65535 * 2 ^ 200) 123 123 0 0 7200 asertParams =
      asertSpec (65535 * 2 ^ 200) 123 123 0 asertParams.proofOfWorkLimit 7200 :=
  C2_calculateASERT_matches_spec (65535 * 2 ^ 200) 123 0 0 asertParams
    (by norm_num) (by decide) (by decide) (by norm_num) (by norm_num) (by norm_num) (by norm_num)

/-- C2 counterexample: at `time_diff = -2^47 + 1`, `height_diff = 0` the
stated magnitude bound `|time_diff - spacing * height_diff| < 2^47` holds,
yet the source's `int64_t` exponent multiplication overflows and
`CalculateASERT` returns the proof-of-work limit where the spec's exact
steps 4-9 prescribe target 1. -/
theorem C2_counterexample :
    (0 < (65535 * 2 ^ 200 : Nat) ∧ (65535 * 2 ^ 200 : Nat) ≤ asertParams.proofOfWorkLimit) ∧
    |(-(2 ^ 47) + 1 : Int) - 123 * 0| < 2 ^ 47 ∧
    CalculateASERT (65535 * 2 ^ 200) 123 (-(2 ^ 47) + 1) 0 0 7200 asertParams ≠
      asertSpec (65535 * 2 ^ 200) 123 (-(2 ^ 47) + 1) 0 asertParams.proofOfWorkLimit 7200 := by
  refine ⟨⟨by norm_num, by decide⟩, ?_, ?_⟩
  · norm_num
  · have hcode : CalculateASERT (65535 * 2 ^ 200) 123 (-(2 ^ 47) + 1) 0 0 7200 asertParams =
        2 ^ 223 - 1 := by
      simp only [CalculateASERT]
      rw [if_neg (by decide)]
      have he : asertExponentI64 123 (-(2 ^ 47) + 1) 0 7200 = 1281023894006497 := by decide
      rw [he]
      have hs : Int.fdiv (1281023894006497 : Int) 65536 - 16 = 19546873366 := by decide
      have hf : (Int.emod (1281023894006497 : Int) 65536).toNat = 43745 := by decide
      rw [hs, hf]
      have hfac : asertFactorU64 43745 % 2 ^ 32 = 104093 := by decide
      rw [hfac]
      have hN : (65535 * 2 ^ 200 * 104093) % 2 ^ 256 = 6821734755 * 2 ^ 200 := by decide
      rw [hN]
      have happ : asertApplyShifts (6821734755 * 2 ^ 200) 19546873366 asertParams.proofOfWorkLimit =
          asertParams.proofOfWorkLimit := by
        simp only [asertApplyShifts]
        rw [if_neg (by decide)]
        have hsh : ((19546873366 : Int)).toNat = 19546873366 := by decide
        rw [hsh]
        rw [shiftLeft_mod_two_pow_eq_zero _ _ (by norm_num), Nat.zero_shiftRight]
        rw [if_pos (by decide)]
      rw [happ]
      decide
    have hspec : asertSpec (65535 * 2 ^ 200) 123 (-(2 ^ 47) + 1) 0
        asertParams.proofOfWorkLimit 7200 = 1 := by
      simp only [asertSpec]
      have he : asertExponent 123 (-(2 ^ 47) + 1) 0 7200 = -1281023894008718 := by decide
      rw [he]
      have hs : Int.fdiv (-1281023894008718 : Int) 65536 - 16 = -19546873399 := by decide
      have hf : (Int.emod (-1281023894008718 : Int) 65536).toNat = 19570 := by decide
      rw [hs, hf]
      have hfac : asertFactor 19570 = 80606 := by decide
      rw [hfac]
      have happ : asertApplyShifts (65535 * 2 ^ 200 * 80606) (-19546873399)
          asertParams.proofOfWorkLimit = 0 := by
        simp only [asertApplyShifts]
        rw [if_pos (by decide)]
        have hsh : ((-(-19546873399 : Int))).toNat = 19546873399 := by decide
        rw [hsh]
        apply shiftRight_eq_zero
        calc 65535 * 2 ^ 200 * 80606 < 2 ^ 256 := by decide
          _ ≤ 2 ^ 19546873399 := Nat.pow_le_pow_right (by norm_num) (by norm_num)
      rw [happ]
      decide
    rw [hcode, hspec]
    decide

/-! Claim C10. -/

/-- C10: when the chain parameters set `SkipProofOfWorkCheck`,
`CheckProofOfWork` returns `true` for every hash and every compact value,
including compacts that decode as negative, zero, overflowing, or above the
proof-of-work limit. -/
theorem C10_skip_check_accepts_everything (hash nBits : Nat) (p : Params)
    (h : p.skipProofOfWorkCheck = true) :
    CheckProofOfWork hash nBits p = true := by
  unfold CheckProofOfWork
  rw [h]
  simp

/-- C10 witness: the zero compact (decoding to target zero) is accepted under
the skip flag. -/
theorem C10_witness :
    skipParams.skipProofOfWorkCheck = true ∧ setCompact 0 = 0 ∧
      CheckProofOfWork 5 0 skipParams = true :=
  ⟨rfl, rfl, C10_skip_check_accepts_everything 5 0 skipParams rfl⟩

/-! Claim C6. -/

/-- C6 counterexample: with `SkipProofOfWorkCheck` set, `nBits = 0` decodes to
target zero yet `CheckProofOfWork` returns `true`, where the claim requires
`false` for a zero target. -/
theorem C6_counterexample :
    setCompact 0 = 0 ∧ CheckProofOfWork 5 0 skipParams = true := by
  exact ⟨rfl, by decide⟩

/-- C6 (amended): when the parameters do not set `SkipProofOfWorkCheck`,
`CheckProofOfWork` returns `false` exactly when the decoded compact is
negative, zero, overflowing, or above the proof-of-work limit; otherwise it
returns `true` iff the hash, read as a 256-bit unsigned integer, is at most
the decoded target. -/
theorem C6_check_proof_of_work (hash nBits : Nat) (p : Params)
    (h : p.skipProofOfWorkCheck = false) :
    CheckProofOfWork hash nBits p = true ↔
      ¬compactNegative nBits ∧ setCompact nBits ≠ 0 ∧ ¬compactOverflow nBits ∧
        setCompact nBits ≤ p.proofOfWorkLimit ∧ hash ≤ setCompact nBits := by
  unfold CheckProofOfWork
  rw [h]
  simp only [Bool.false_eq_true, if_false]
  split_ifs with h1 h2
  · simp only [Bool.false_eq_true, false_iff]
    rintro ⟨hn, hz, ho, hl, _⟩
    rcases h1 with hb | hb | hb | hb
    · exact hn hb
    · exact hz hb
    · exact ho hb
    · omega
  · simp only [Bool.false_eq_true, false_iff]
    rintro ⟨_, _, _, _, hh⟩
    omega
  · simp only [true_iff]
    push_neg at h1 h2
    exact ⟨h1.1, h1.2.1, h1.2.2.1, by omega, h2⟩

/-- C6 witness: a concrete non-skipping check. -/
theorem C6_witness :
    mainParams.skipProofOfWorkCheck = false ∧
      (CheckProofOfWork 5 0x1d00ffff mainParams = true ↔
        ¬compactNegative 0x1d00ffff ∧ setCompact 0x1d00ffff ≠ 0 ∧ ¬compactOverflow 0x1d00ffff ∧
          setCompact 0x1d00ffff ≤ mainParams.proofOfWorkLimit ∧ 5 ≤ setCompact 0x1d00ffff) :=
  ⟨rfl, C6_check_proof_of_work 5 0x1d00ffff mainParams rfl⟩

/-! Claim C9. -/

/-- C9: on every network whose parameters report `RequireStandard() = false`,
the dispatcher selects the V1 algorithm at every tip height; the
DGW2/DGW3/ASERT height bands apply only on standardness-requiring
networks. -/
theorem C9_nonstandard_networks_use_V1 (tip : Block) (rest : List Block) (pblock : Header)
    (p : Params) (h : p.requireStandard = false) :
    GetNextWorkRequired (tip :: rest) pblock p =
      GetNextWorkRequired_V1 (tip :: rest) pblock p := by
  unfold GetNextWorkRequired diffMode
  rw [h]
  simp

/-- C9 witness: a concrete non-standard network tip. -/
theorem C9_witness :
    nonStdParams.requireStandard = false ∧
      GetNextWorkRequired ((⟨7, 1000, 0x1d00ffff⟩ : Block) :: mkChain 6 990 10 0x1d00ffff 4) hdr0
          nonStdParams =
        GetNextWorkRequired_V1 ((⟨7, 1000, 0x1d00ffff⟩ : Block) :: mkChain 6 990 10 0x1d00ffff 4)
          hdr0 nonStdParams :=
  ⟨rfl, C9_nonstandard_networks_use_V1 ⟨7, 1000, 0x1d00ffff⟩ (mkChain 6 990 10 0x1d00ffff 4) hdr0
    nonStdParams rfl⟩

/-! Claim C8. -/

/-- C8 counterexample: with `fPowNoRetargeting` set, a tip at height 126000
(DGW3 band) still retargets: the dispatcher's result differs from the tip's
`nBits`. -/
theorem C8_counterexample :
    noRetargetParams.fPowNoRetargeting = true ∧
      (c4chain.head?.map Block.nBits = some 0x1d00ffff) ∧
      GetNextWorkRequired c4chain hdr0 noRetargetParams ≠ some 0x1d00ffff := by
  refine ⟨rfl, rfl, ?_⟩
  decide

/-- C8 (amended): `GetNextWorkRequired` contains no `fPowNoRetargeting`
exemption at all: its result is invariant under that flag, for every tip,
candidate header and parameter record. -/
theorem C8_no_retargeting_flag_ignored (pindexLast : List Block) (pblock : Header) (p : Params)
    (b : Bool) :
    GetNextWorkRequired pindexLast pblock { p with fPowNoRetargeting := b } =
      GetNextWorkRequired pindexLast pblock p := rfl

/-! Claim C1. -/

/-- C1 (amended): on networks requiring standardness the dispatcher selects
exactly one difficulty algorithm by height band — V1 for `h < 120000`, DGW2
for `120000 ≤ h < 126000`, DGW3 for `126000 ≤ h < 4000000`, and ASERT
(`GravityAsert`) for `h ≥ 4000000` — and returns that algorithm's result. -/
theorem C1_dispatch_bands (tip : Block) (rest : List Block) (pblock : Header) (p : Params)
    (hstd : p.requireStandard = true) :
    (tip.nHeight + 1 < 120000 →
      GetNextWorkRequired (tip :: rest) pblock p =
        GetNextWorkRequired_V1 (tip :: rest) pblock p) ∧
    (120000 ≤ tip.nHeight + 1 → tip.nHeight + 1 < 126000 →
      GetNextWorkRequired (tip :: rest) pblock p =
        some (DarkGravityWave2 (tip :: rest) pblock p)) ∧
    (126000 ≤ tip.nHeight + 1 → tip.nHeight + 1 < 4000000 →
      GetNextWorkRequired (tip :: rest) pblock p =
        some (DarkGravityWave3 (tip :: rest) pblock p)) ∧
    (4000000 ≤ tip.nHeight + 1 →
      GetNextWorkRequired (tip :: rest) pblock p =
        some (GravityAsert (tip :: rest) pblock p)) := by
  refine ⟨?_, ?_, ?_, ?_⟩
  · intro h1
    simp only [GetNextWorkRequired, diffMode, hstd]
    rw [if_neg (show ¬(4000000 : Int) ≤ tip.nHeight + 1 by omega),
      if_neg (show ¬(126000 : Int) ≤ tip.nHeight + 1 by omega),
      if_neg (show ¬(120000 : Int) ≤ tip.nHeight + 1 by omega)]
    simp
  · intro h1 h2
    simp only [GetNextWorkRequired, diffMode, hstd]
    rw [if_neg (show ¬(4000000 : Int) ≤ tip.nHeight + 1 by omega),
      if_neg (show ¬(126000 : Int) ≤ tip.nHeight + 1 by omega),
      if_pos (show (120000 : Int) ≤ tip.nHeight + 1 from h1)]
    simp
  · intro h1 h2
    simp only [GetNextWorkRequired, diffMode, hstd]
    rw [if_neg (show ¬(4000000 : Int) ≤ tip.nHeight + 1 by omega),
      if_pos (show (126000 : Int) ≤ tip.nHeight + 1 from h1)]
    simp
  · intro h1
    simp only [GetNextWorkRequired, diffMode, hstd]
    rw [if_pos (show (4000000 : Int) ≤ tip.nHeight + 1 from h1)]
    simp

/-- C1 witness: a concrete tip in the DGW3 band. -/
theorem C1_witness :
    GetNextWorkRequired ((⟨126000, 1000000, 0x1d00ffff⟩ : Block) ::
        mkChain 125999 999877 123 0x1d00ffff 24) hdr0 mainParams =
      some (DarkGravityWave3 ((⟨126000, 1000000, 0x1d00ffff⟩ : Block) ::
        mkChain 125999 999877 123 0x1d00ffff 24) hdr0 mainParams) :=
  (C1_dispatch_bands ⟨126000, 1000000, 0x1d00ffff⟩ (mkChain 125999 999877 123 0x1d00ffff 24) hdr0
      mainParams rfl).2.2.1 (by norm_num) (by norm_num)

/-- C1 counterexample: at tip height 2999999 the next height 3000000 is at or
above the claimed ASERT boundary 2999999, but the dispatcher runs
DarkGravityWave3 and its result differs from the ASERT algorithm's result on
the same tip. -/
theorem C1_counterexample :
    mainParams.requireStandard = true ∧
      GetNextWorkRequired c1chain hdr0 mainParams =
        some (DarkGravityWave3 c1chain hdr0 mainParams) ∧
      GetNextWorkRequired c1chain hdr0 mainParams ≠
        some (GravityAsert c1chain hdr0 mainParams) := by
  refine ⟨rfl, by decide, by decide⟩

/-! Helper lemmas: the anchor walk. -/

lemma anchorWalk_mem (a : Int) : ∀ l : List Block, ∀ b : Block, anchorWalk a l = some b → b ∈ l := by
  intro l
  induction l with
  | nil => intro b hb; simp [anchorWalk] at hb
  | cons c t ih =>
    intro b hb
    unfold anchorWalk at hb
    by_cases hc : c.nHeight > a
    · rw [if_pos hc] at hb
      exact List.mem_cons_of_mem c (ih b hb)
    · rw [if_neg hc] at hb
      rw [Option.some_inj] at hb
      rw [← hb]
      exact List.mem_cons_self c t

lemma anchorWalk_none (a : Int) : ∀ l : List Block, anchorWalk a l = none →
    ∀ x ∈ l, a < x.nHeight := by
  intro l
  induction l with
  | nil => intro _ x hx; simp at hx
  | cons c t ih =>
    intro hw x hx
    unfold anchorWalk at hw
    by_cases hc : c.nHeight > a
    · rw [if_pos hc] at hw
      rcases List.mem_cons.mp hx with hx | hx
      · rw [hx]; exact hc
      · exact ih hw x hx
    · rw [if_neg hc] at hw
      exact absurd hw (by simp)

lemma wellFormed_tail (b : Block) (t : List Block) (h : wellFormed (b :: t)) : wellFormed t := by
  cases t with
  | nil => trivial
  | cons c t' => exact h.2

lemma wellFormed_lt_head : ∀ (t : List Block) (b : Block), wellFormed (b :: t) →
    ∀ x ∈ t, x.nHeight < b.nHeight := by
  intro t
  induction t with
  | nil => intro b _ x hx; simp at hx
  | cons c t' ih =>
    intro b hwf x hx
    have h1 : b.nHeight = c.nHeight + 1 := hwf.1
    rcases List.mem_cons.mp hx with hx | hx
    · rw [hx]; omega
    · have := ih c hwf.2 x hx
      omega

lemma anchorWalk_finds (a : Int) : ∀ (t : List Block) (b : Block), wellFormed (b :: t) →
    a ≤ b.nHeight → ∀ x ∈ b :: t, x.nHeight = a → anchorWalk a (b :: t) = some x := by
  intro t
  induction t with
  | nil =>
    intro b _ hab x hx hxa
    rcases List.mem_cons.mp hx with hx | hx
    · subst hx
      unfold anchorWalk
      rw [if_neg (by omega)]
    · simp at hx
  | cons c t' ih =>
    intro b hwf hab x hx hxa
    have h1 : b.nHeight = c.nHeight + 1 := hwf.1
    by_cases hba : b.nHeight > a
    · have hxb : x ≠ b := by
        intro he
        rw [he] at hxa
        omega
      have hxt : x ∈ c :: t' := by
        rcases List.mem_cons.mp hx with h | h
        · exact absurd h hxb
        · exact h
      unfold anchorWalk
      rw [if_pos hba]
      exact ih c hwf.2 (by omega) x hxt hxa
    · have hbeq : b.nHeight = a := by omega
      have hxb : x = b := by
        rcases List.mem_cons.mp hx with h | h
        · exact h
        · have := wellFormed_lt_head (c :: t') b hwf x h
          omega
      unfold anchorWalk
      rw [if_neg hba, hxb]

/-! Claim C3. -/

/-- C3 (amended): the ASERT algorithm walks back to the unique ancestor at
the hardcoded height 2996106 — not the chain parameters' `nASERTAnchor`
(2999999 on mainnet) — and bases all scheduling on that node
(`gravityAsertCore`); for every tip whose ancestor chain contains no node at
exactly height 2996106 it returns the compact proof-of-work limit. -/
theorem C3_anchor_walk (p : Params) (pblock : Header) (tip : Block) (rest : List Block)
    (hwf : wellFormed (tip :: rest)) :
    ((∀ x ∈ tip :: rest, x.nHeight ≠ 2996106) →
      GravityAsert (tip :: rest) pblock p = getCompact p.proofOfWorkLimit) ∧
    (∀ anchor ∈ tip :: rest, anchor.nHeight = 2996106 → 2996106 ≤ tip.nHeight →
      GravityAsert (tip :: rest) pblock p = gravityAsertCore tip anchor p) := by
  constructor
  · intro hno
    simp only [GravityAsert]
    by_cases htip : tip.nHeight < 2996106
    · rw [if_pos htip]
    · rw [if_neg htip]
      cases hwalk : anchorWalk 2996106 (tip :: rest) with
      | none => rfl
      | some b =>
        have hb := anchorWalk_mem 2996106 (tip :: rest) b hwalk
        dsimp only
        rw [if_pos (hno b hb)]
  · intro anchor hmem heq htip
    simp only [GravityAsert]
    rw [if_neg (by omega)]
    rw [anchorWalk_finds 2996106 rest tip hwf htip anchor hmem heq]
    dsimp only
    rw [if_neg (not_not_intro heq)]

/-- C3 witness: a tip 24 blocks past the hardcoded anchor. -/
theorem C3_anchor_walk_witness :
    GravityAsert ((⟨2996130, 1000000, 0x1d00ffff⟩ : Block) ::
        mkChain 2996129 999877 123 0x1d00ffff 24) hdr0 mainParams =
      gravityAsertCore ⟨2996130, 1000000, 0x1d00ffff⟩ ⟨2996106, 997048, 0x1d00ffff⟩ mainParams :=
  (C3_anchor_walk mainParams hdr0 ⟨2996130, 1000000, 0x1d00ffff⟩
      (mkChain 2996129 999877 123 0x1d00ffff 24) (by decide)).2
    ⟨2996106, 997048, 0x1d00ffff⟩ (by decide) rfl (by norm_num)

/-- C3 counterexample: a tip whose ancestor chain contains no node at height
2999999 (the spec's anchor height, and the chain parameters' `nASERTAnchor`)
for which `GravityAsert` nevertheless returns a computed ASERT target, not
the compact proof-of-work limit. -/
theorem C3_counterexample :
    (∀ x ∈ c3chain, x.nHeight ≠ 2999999) ∧ mainParams.nASERTAnchor = 2999999 ∧
      GravityAsert c3chain hdr0 mainParams ≠ getCompact mainParams.proofOfWorkLimit := by
  refine ⟨by decide, rfl, by decide⟩

/-! Helper lemmas: the DGW3 walk on a uniform chain. -/

lemma dgw3Loop_uniform (nb : Nat) : ∀ (n : Nat) (h t : Int) (i : Nat) (act : Int),
    1 ≤ i → i + n ≤ 26 → (n : Int) < h → 123 * (n : Int) < t →
    dgw3Loop (mkChain h t 123 nb n) i ((i : Int) - 1) (bigSetCompact nb) (t + 123) act =
      (((i : Int) - 1) + ((min n (25 - i) : Nat) : Int), bigSetCompact nb,
        act + 123 * ((min n (25 - i) : Nat) : Int)) := by
  intro n
  induction n with
  | zero =>
    intro h t i act h1 h2 h3 h4
    simp [mkChain, dgw3Loop]
  | succ n' ih =>
    intro h t i act h1 h2 h3 h4
    by_cases hi : 24 < i
    · have hieq : i = 25 := by omega
      subst hieq
      simp only [mkChain, dgw3Loop]
      rw [if_neg (show ¬h ≤ 0 by push_cast at h3; omega), if_pos (by norm_num)]
      simp
    · simp only [mkChain, dgw3Loop]
      rw [if_neg (show ¬h ≤ 0 by push_cast at h3; omega), if_neg hi]
      rw [show ((i : Int) - 1) + 1 = (i : Int) by omega]
      rw [if_pos (show (i : Int) ≤ 24 by omega)]
      rw [if_pos (show (0 : Int) < t + 123 by push_cast at h4; omega)]
      rw [show t + 123 - t = (123 : Int) by ring]
      have havg : (if (i : Int) = 1 then bigSetCompact nb
          else Int.tdiv (bigSetCompact nb * (i : Int) + bigSetCompact nb) ((i : Int) + 1)) =
          bigSetCompact nb := by
        by_cases hi1 : (i : Int) = 1
        · rw [if_pos hi1]
        · rw [if_neg hi1]
          rw [show bigSetCompact nb * (i : Int) + bigSetCompact nb =
            bigSetCompact nb * ((i : Int) + 1) by ring]
          exact Int.mul_tdiv_cancel _ (by omega)
      rw [havg]
      have key := ih (h - 1) (t - 123) (i + 1) (act + 123) (by omega) (by omega)
        (by push_cast at h3 ⊢; omega) (by push_cast at h4 ⊢; omega)
      push_cast at key
      rw [show (i : Int) + 1 - 1 = (i : Int) by ring, show t - 123 + 123 = t by ring] at key
      rw [key]
      simp only [Prod.mk.injEq]
      refine ⟨by push_cast; omega, trivial, by push_cast; omega⟩

/-! Claim C4. -/

/-- C4 (amended): each per-gap contribution to `nActualTimespan` is
`LastBlockTime - this.time` — the more recently visited (newer) block's time
minus the current (older) block's — which for forward-running clocks is
positive.  For a tip whose past blocks all have exact 123-second gaps, the
24-block walk accumulates 23 gaps: `nActualTimespan = 23 * 123 = 2829`, which
lies inside the clamp window `[984, 8856]`, so the returned target is
`avg * 2829 / 2952` (not `avg / 3`). -/
theorem C4_dgw3_uniform_gaps (nb : Nat) (h t : Int) (p : Params) (pblock : Header)
    (hh : 26 ≤ h) (ht : 123 * 25 < t)
    (hx1 : 1 ≤ bigSetCompact nb) (hx2 : bigSetCompact nb ≤ (p.proofOfWorkLimit : Int))
    (hc : bigGetCompact (Int.tdiv (bigSetCompact nb * 2829) 2952) ≤
      getCompact p.proofOfWorkLimit) :
    DarkGravityWave3 (mkChain h t 123 nb 25) pblock p =
      bigGetCompact (Int.tdiv (bigSetCompact nb * 2829) 2952) := by
  have hchain : mkChain h t 123 nb 25 =
      (⟨h, t, nb⟩ : Block) :: mkChain (h - 1) (t - 123) 123 nb 24 := rfl
  rw [hchain]
  simp only [DarkGravityWave3]
  rw [if_neg (show ¬(h = 0 ∨ h < 24) by push_neg; exact ⟨by omega, by omega⟩)]
  have hstep : dgw3Loop ((⟨h, t, nb⟩ : Block) :: mkChain (h - 1) (t - 123) 123 nb 24) 1 0 0 0 0 =
      dgw3Loop (mkChain (h - 1) (t - 123) 123 nb 24) 2 1 (bigSetCompact nb) t 0 := by
    rw [dgw3Loop]
    rw [if_neg (show ¬h ≤ 0 by omega), if_neg (by norm_num)]
    norm_num
  have key := dgw3Loop_uniform nb 24 (h - 1) (t - 123) 2 0 (by norm_num) (by norm_num)
    (by push_cast; omega) (by push_cast; omega)
  rw [show t - 123 + 123 = t by ring] at key
  norm_num at key
  rw [hstep]
  rw [show (1 : Int) = ((2 : Nat) : Int) - 1 by norm_num] at key ⊢
  rw [key]
  norm_num
  rw [if_neg (show ¬(bigSetCompact nb = 0 ∨ (p.proofOfWorkLimit : Int) < bigSetCompact nb) by
    push_neg
    exact ⟨by omega, by omega⟩)]
  rw [show Int.tdiv (2952 : Int) 3 = 984 from by decide]
  simp only [if_neg (show ¬(2829 : Int) < 984 by norm_num)]
  simp only [if_neg (show ¬(8856 : Int) < 2829 by norm_num)]
  simp only [if_neg (show ¬getCompact p.proofOfWorkLimit <
    bigGetCompact (Int.tdiv (bigSetCompact nb * 2829) 2952) by omega)]

/-- C4 witness: a tip at height 126000 with exact 123-second gaps and anchor
target `0x1d00ffff`. -/
theorem C4_dgw3_uniform_gaps_witness :
    DarkGravityWave3 (mkChain 126000 1000000 123 0x1d00ffff 25) hdr0 mainParams =
      bigGetCompact (Int.tdiv (bigSetCompact 0x1d00ffff * 2829) 2952) :=
  C4_dgw3_uniform_gaps 0x1d00ffff 126000 1000000 mainParams hdr0 (by norm_num) (by norm_num)
    (by decide) (by decide) (by decide)

/-- C4 counterexample: on the 123-second-gap chain of the claim's scenario,
DGW3 returns `avg * 2829 / 2952`, not the claimed `avg * 984 / 2952 =
avg / 3` that the negative sign convention would produce. -/
theorem C4_counterexample :
    DarkGravityWave3 c4chain hdr0 mainParams =
        bigGetCompact (Int.tdiv (bigSetCompact 0x1d00ffff * 2829) 2952) ∧
      DarkGravityWave3 c4chain hdr0 mainParams ≠
        bigGetCompact (Int.tdiv (bigSetCompact 0x1d00ffff * 984) 2952) := by
  refine ⟨by decide, by decide⟩

/-! Claim C5. -/

/-- C5: on a retarget boundary (`h mod interval = 0`, with the fork-adjusted
interval), V1 walks back `interval - 1` blocks exactly when `h = interval`
and `interval` otherwise (the hypothesis `hwalk` states the walk with exactly
that count), and returns the compact encoding of the spec's retarget value
`v1RetargetSpec`: the clamped actual timespan, the conditional one-bit shift
guard at 235 bits, `target * actual / timespan`, clamped to the
proof-of-work limit — all in exact arithmetic (no 256-bit wrap occurs). -/
theorem C5_v1_retarget_boundary (tip : Block) (rest : List Block) (pblock : Header) (p : Params)
    (first : Block)
    (htspan1 : 0 < p.targetTimespan) (htspan2 : p.targetTimespan ≤ 302400)
    (hbits : setCompact tip.nBits ≤ p.proofOfWorkLimit) (hpl : p.proofOfWorkLimit < 2 ^ 236)
    (hbound : Int.tmod (tip.nHeight + 1) (v1Interval p (tip.nHeight + 1)) = 0)
    (hwalk : walkBack (tip :: rest)
        (if tip.nHeight + 1 ≠ v1Interval p (tip.nHeight + 1) then v1Interval p (tip.nHeight + 1)
         else v1Interval p (tip.nHeight + 1) - 1) = some first) :
    GetNextWorkRequired_V1 (tip :: rest) pblock p =
      some (getCompact (v1RetargetSpec tip first p)) := by
  simp only [GetNextWorkRequired_V1, v1RetargetSpec]
  rw [if_neg (not_not_intro hbound)]
  rw [hwalk]
  dsimp only
  set ts := v1Timespan p (tip.nHeight + 1) with hts
  have hts0 : 0 < ts := by
    rw [hts]
    unfold v1Timespan
    split_ifs
    · norm_num
    · exact htspan1
  have hts302400 : ts ≤ 302400 := by
    rw [hts]
    unfold v1Timespan
    split_ifs
    · norm_num
    · exact htspan2
  have htse : Int.tdiv ts 4 = ts / 4 := Int.tdiv_eq_ediv (by omega) (by norm_num)
  set raw := tip.nTime - first.nTime with hraw
  set act := max (Int.tdiv ts 4) (min raw (ts * 4)) with hact
  have hclamp : (if (if raw < Int.tdiv ts 4 then Int.tdiv ts 4 else raw) > ts * 4 then ts * 4
      else if raw < Int.tdiv ts 4 then Int.tdiv ts 4 else raw) = act := by
    rw [hact, htse]
    split_ifs with h1 h2 <;> rw [htse] at * <;> omega
  rw [hclamp]
  have hact_nonneg : 0 ≤ act := by
    rw [hact]
    rw [htse]
    omega
  have hact_ub : act ≤ ts * 4 := by
    rw [hact]
    rw [htse]
    omega
  have hactN : act.toNat ≤ ts.toNat * 4 := by omega
  have htsN : ts.toNat ≤ 302400 := by omega
  set T := setCompact tip.nBits with hT
  have hTlt : T < 2 ^ 236 := lt_of_le_of_lt hbits hpl
  by_cases hshift : 235 < bitLen T
  · rw [if_pos hshift, if_pos hshift, if_pos hshift]
    have hT2 : T >>> 1 < 2 ^ 235 := by
      rw [Nat.shiftRight_eq_div_pow]
      omega
    have hmul : T >>> 1 * act.toNat < 2 ^ 256 := by
      calc T >>> 1 * act.toNat < 2 ^ 235 * (302400 * 4 + 1) :=
            Nat.mul_lt_mul_of_lt_of_le hT2 (by omega) (by norm_num)
        _ < 2 ^ 256 := by norm_num
    rw [Nat.mod_eq_of_lt hmul]
    have hq : T >>> 1 * act.toNat / ts.toNat ≤ 2 ^ 235 * 4 := by
      have h1 : T >>> 1 * act.toNat / ts.toNat ≤ T >>> 1 * (ts.toNat * 4) / ts.toNat :=
        Nat.div_le_div_right (Nat.mul_le_mul_left _ hactN)
      have h2 : T >>> 1 * (ts.toNat * 4) = T >>> 1 * 4 * ts.toNat := by ring
      rw [h2, Nat.mul_div_cancel _ (by omega : 0 < ts.toNat)] at h1
      omega
    have hq2 : (T >>> 1 * act.toNat / ts.toNat) <<< 1 < 2 ^ 256 := by
      rw [Nat.shiftLeft_eq]
      calc T >>> 1 * act.toNat / ts.toNat * 2 ^ 1 ≤ 2 ^ 235 * 4 * 2 ^ 1 :=
            Nat.mul_le_mul_right _ hq
        _ < 2 ^ 256 := by norm_num
    rw [Nat.mod_eq_of_lt hq2]
    rcases Nat.lt_or_ge p.proofOfWorkLimit ((T >>> 1 * act.toNat / ts.toNat) <<< 1) with hcmp | hcmp
    · rw [if_pos hcmp]
      congr 2
      omega
    · rw [if_neg (by omega)]
      congr 2
      omega
  · rw [if_neg hshift, if_neg hshift, if_neg hshift]
    have hT2 : T < 2 ^ 235 :=
      (bitLen_le_iff T 235 (by omega)).mp (by omega)
    have hmul : T * act.toNat < 2 ^ 256 := by
      calc T * act.toNat < 2 ^ 235 * (302400 * 4 + 1) :=
            Nat.mul_lt_mul_of_lt_of_le hT2 (by omega) (by norm_num)
        _ < 2 ^ 256 := by norm_num
    rw [Nat.mod_eq_of_lt hmul]
    rcases Nat.lt_or_ge p.proofOfWorkLimit (T * act.toNat / ts.toNat) with hcmp | hcmp
    · rw [if_pos hcmp]
      congr 2
      omega
    · rw [if_neg (by omega)]
      congr 2
      omega

/-- C5 witness: a retarget boundary at height 8 with interval 4. -/
theorem C5_v1_retarget_boundary_witness :
    GetNextWorkRequired_V1 ((⟨7, 1000, 0x1d00ffff⟩ : Block) :: mkChain 6 990 10 0x1d00ffff 4)
        hdr0 v1Params = some 0x1d00ffff :=
  (C5_v1_retarget_boundary ⟨7, 1000, 0x1d00ffff⟩ (mkChain 6 990 10 0x1d00ffff 4) hdr0 v1Params
      ⟨3, 960, 0x1d00ffff⟩ (by decide) (by decide) (by decide) (by decide) (by decide)
      (by decide)).trans (by decide)

/-! Helper lemmas: sign-magnitude shifts and the final ASERT clamp. -/

lemma bigShr_nonneg (x : Int) (n : Nat) (hx : 0 ≤ x) : 0 ≤ bigShr x n := by
  unfold bigShr
  rw [if_neg (by omega)]
  positivity

lemma clampRoundTrip (x : Int) (pl : Nat) (hx : 0 ≤ x) (hpl1 : 1 ≤ pl) (hpl2 : pl < 2 ^ 256) :
    ¬compactNegative
        (bigGetCompact
          (if (if x > bigSetCompact (getCompact pl) then bigSetCompact (getCompact pl) else x) = 0
            then 1
            else if x > bigSetCompact (getCompact pl) then bigSetCompact (getCompact pl) else x)) ∧
      1 ≤ setCompact
          (bigGetCompact
            (if (if x > bigSetCompact (getCompact pl) then bigSetCompact (getCompact pl) else x) = 0
              then 1
              else if x > bigSetCompact (getCompact pl) then bigSetCompact (getCompact pl)
                else x)) ∧
      setCompact
          (bigGetCompact
            (if (if x > bigSetCompact (getCompact pl) then bigSetCompact (getCompact pl) else x) = 0
              then 1
              else if x > bigSetCompact (getCompact pl) then bigSetCompact (getCompact pl)
                else x)) ≤ pl := by
  have hLv := bigSetCompact_getCompact pl hpl1 hpl2
  have hL1 := setCompact_getCompact_pos pl hpl1 hpl2
  have hL2 := setCompact_getCompact_le pl hpl1 hpl2
  set L := bigSetCompact (getCompact pl) with hLdef
  set y := if x > L then L else x with hy
  have hyb : 0 ≤ y ∧ y ≤ (pl : Int) := by
    rw [hy]
    split_ifs with h1
    · constructor
      · rw [hLv]; omega
      · rw [hLv]
        have : setCompact (getCompact pl) ≤ pl := hL2
        omega
    · constructor
      · exact hx
      · push_neg at h1
        rw [hLv] at h1
        have : setCompact (getCompact pl) ≤ pl := hL2
        omega
  set w := if y = 0 then 1 else y with hw
  have hwb : 1 ≤ w ∧ w ≤ (pl : Int) := by
    rw [hw]
    split_ifs with h1
    · constructor
      · norm_num
      · omega
    · constructor
      · omega
      · exact hyb.2
  have hwn1 : 1 ≤ w.natAbs := by omega
  have hwn2 : w.natAbs ≤ pl := by omega
  have hbg : bigGetCompact w = getCompact w.natAbs := by
    unfold bigGetCompact
    rw [if_neg (by omega)]
  rw [hbg]
  refine ⟨getCompact_not_negative w.natAbs hwn1 (by omega), ?_, ?_⟩
  · exact setCompact_getCompact_pos w.natAbs hwn1 (by omega)
  · exact le_trans (setCompact_getCompact_le w.natAbs hwn1 (by omega)) hwn2

lemma gravityAsertCore_bounds (tip anchor : Block) (p : Params)
    (hpl1 : 1 ≤ p.proofOfWorkLimit) (hpl2 : p.proofOfWorkLimit < 2 ^ 256)
    (ha : 0 ≤ bigSetCompact anchor.nBits) :
    ¬compactNegative (gravityAsertCore tip anchor p) ∧
      1 ≤ setCompact (gravityAsertCore tip anchor p) ∧
      setCompact (gravityAsertCore tip anchor p) ≤ p.proofOfWorkLimit := by
  simp only [gravityAsertCore]
  apply clampRoundTrip _ _ _ hpl1 hpl2
  have hb : 0 ≤ bigSetCompact anchor.nBits *
      ((asertFactorU64 ((Int.emod (asertExponentI64 123
        (wrap64 (tip.nTime - anchor.nTime)) (wrap32 (tip.nHeight - anchor.nHeight)) (2 * 3600))
        65536).toNat) : Nat) : Int) :=
    mul_nonneg ha (by positivity)
  split_ifs
  · exact bigShr_nonneg _ _ hb
  · unfold bigShl
    positivity
  · exact hb

/-! Claim C7. -/

/-- C7 (amended): for every tip built from blocks whose compact targets
decode to positive values, the result of the ASERT branch (`GravityAsert`)
decodes to a positive, non-negative-flagged target no larger than the
proof-of-work limit.  (The counterexample shows the claimed invariant fails
for the DGW3 branch, so the invariant survives only on the ASERT branch and
the limit-returning paths.) -/
theorem C7_asert_clamp_invariant (pindexLast : List Block) (pblock : Header) (p : Params)
    (hpl1 : 1 ≤ p.proofOfWorkLimit) (hpl2 : p.proofOfWorkLimit < 2 ^ 256)
    (hvalid : ∀ b ∈ pindexLast, 0 < bigSetCompact b.nBits) :
    ¬compactNegative (GravityAsert pindexLast pblock p) ∧
      1 ≤ setCompact (GravityAsert pindexLast pblock p) ∧
      setCompact (GravityAsert pindexLast pblock p) ≤ p.proofOfWorkLimit := by
  have hlim : ¬compactNegative (getCompact p.proofOfWorkLimit) ∧
      1 ≤ setCompact (getCompact p.proofOfWorkLimit) ∧
      setCompact (getCompact p.proofOfWorkLimit) ≤ p.proofOfWorkLimit :=
    ⟨getCompact_not_negative _ hpl1 hpl2, setCompact_getCompact_pos _ hpl1 hpl2,
      setCompact_getCompact_le _ hpl1 hpl2⟩
  cases pindexLast with
  | nil => exact hlim
  | cons tip rest =>
    simp only [GravityAsert]
    by_cases htip : tip.nHeight < 2996106
    · rw [if_pos htip]
      exact hlim
    · rw [if_neg htip]
      cases hwalk : anchorWalk 2996106 (tip :: rest) with
      | none => exact hlim
      | some anchor =>
        dsimp only
        by_cases hanchor : anchor.nHeight ≠ 2996106
        · rw [if_pos hanchor]
          exact hlim
        · rw [if_neg hanchor]
          exact gravityAsertCore_bounds tip anchor p hpl1 hpl2
            (le_of_lt (hvalid anchor (anchorWalk_mem 2996106 (tip :: rest) anchor hwalk)))

/-- C7 witness: the ASERT invariant at a concrete anchored tip. -/
theorem C7_asert_clamp_invariant_witness :
    ¬compactNegative (GravityAsert c3chain hdr0 mainParams) ∧
      1 ≤ setCompact (GravityAsert c3chain hdr0 mainParams) ∧
      setCompact (GravityAsert c3chain hdr0 mainParams) ≤ mainParams.proofOfWorkLimit :=
  C7_asert_clamp_invariant c3chain hdr0 mainParams (by decide) (by decide) (by decide)

/-- C7 counterexample: a tip in the DGW3 band whose 25 blocks all carry the
valid compact `0x01010000` (decoding to target 1) and one shared timestamp;
the dispatcher returns the compact value 0, which decodes to 0, violating
`0 < decode(n)`. -/
theorem C7_counterexample :
    (∀ b ∈ c7chain, ¬compactNegative b.nBits ∧ ¬compactOverflow b.nBits ∧
        1 ≤ setCompact b.nBits ∧ setCompact b.nBits ≤ mainParams.proofOfWorkLimit) ∧
      GetNextWorkRequired c7chain hdr0 mainParams = some 0 ∧ setCompact 0 = 0 := by
  refine ⟨by decide, by decide, rfl⟩

end Marscoin
